import Mathlib

/-
Verification development for the sshesame honeypot's session-interaction
engine: shallow embedding of the command interpreter and in-memory
filesystem (src/unnamed/part_001), the password/banner callbacks
(src/auth.go) and the direct-tcpip channel handler (src/tcpip.go),
followed by theorems settling the specification claims.
-/

set_option maxHeartbeats 1000000
set_option maxRecDepth 8000

namespace Sshesame

/- Low-level string helpers, mirroring the Go standard-library functions the
source uses.  All of them work on plain character lists so that every
definition evaluates by kernel reduction. -/

/-- Whitespace as recognised by Go's strings.Fields on ASCII input. -/
def isGoSpace (c : Char) : Bool :=
  c = ' ' || c = '\t' || c = '\n' || c = Char.ofNat 11 || c = Char.ofNat 12 || c = '\r'

/-- Accumulator-based worker for goFields; acc holds the current token reversed. -/
def fieldsAux : List Char → List Char → List String
  | [], [] => []
  | [], acc => [String.mk acc.reverse]
  | c :: cs, acc =>
    if isGoSpace c then
      match acc with
      | [] => fieldsAux cs []
      | _ => String.mk acc.reverse :: fieldsAux cs []
    else fieldsAux cs (c :: acc)

/-- Go strings.Fields: split on runs of whitespace, dropping empty tokens. -/
def goFields (s : String) : List String :=
  fieldsAux s.data []

/-- Worker for goSplit; acc holds the current segment reversed. -/
def splitAux (sep : Char) : List Char → List Char → List String
  | [], acc => [String.mk acc.reverse]
  | c :: cs, acc =>
    if c = sep then String.mk acc.reverse :: splitAux sep cs []
    else splitAux sep cs (c :: acc)

/-- Go strings.Split with a one-character separator. -/
def goSplit (s : String) (sep : Char) : List String :=
  splitAux sep s.data []

/-- Go strings.Join with a one-space separator. -/
def joinSpace : List String → String
  | [] => ""
  | [s] => s
  | s :: rest => s ++ " " ++ joinSpace rest

/-- Join path segments with "/". -/
def joinSlash : List String → String
  | [] => ""
  | [s] => s
  | s :: rest => s ++ "/" ++ joinSlash rest

/-- One step of the lexical cleaning loop of Go's filepath.Clean; the output
segments are accumulated in reverse. -/
def cleanFold (rooted : Bool) (outRev : List String) (seg : String) : List String :=
  if seg = "" || seg = "." then outRev
  else if seg = ".." then
    match outRev with
    | top :: rest => if top = ".." then seg :: outRev else rest
    | [] => if rooted then [] else [".."]
  else seg :: outRev

/-- Go filepath.Clean (unix rules): drop empty and "." segments, resolve ".."
against preceding segments, keep leading ".." only for relative paths. -/
def cleanPath (p : String) : String :=
  if p = "" then "."
  else
    let rooted : Bool := match p.data with | '/' :: _ => true | _ => false
    let out := ((goSplit p '/').foldl (cleanFold rooted) []).reverse
    if rooted then "/" ++ joinSlash out
    else if out = [] then "." else joinSlash out

/- The in-memory filesystem of src/unnamed/part_001: a tree of nodes with an
IsDir flag, a content string and a children map (children are modelled as an
association list; Go map iteration order is unspecified). -/

/-- FileSystemNode: IsDir flag, Content string, Children name-to-node map. -/
inductive FSNode where
  | mk (isDir : Bool) (content : String) (children : List (String × FSNode))

def FSNode.isDir : FSNode → Bool
  | FSNode.mk d _ _ => d

def FSNode.content : FSNode → String
  | FSNode.mk _ c _ => c

def FSNode.children : FSNode → List (String × FSNode)
  | FSNode.mk _ _ _children => _children

def FSNode.withChildren : FSNode → List (String × FSNode) → FSNode
  | FSNode.mk d c _, cs => FSNode.mk d c cs

/-- Lookup in a children map. -/
def lookupChild : List (String × FSNode) → String → Option FSNode
  | [], _ => none
  | (k, v) :: rest, n => if k = n then some v else lookupChild rest n

/-- Map assignment Children[name] = node: replace in place or append. -/
def insertChild : List (String × FSNode) → String → FSNode → List (String × FSNode)
  | [], n, v => [(n, v)]
  | (k, w) :: rest, n, v =>
    if k = n then (k, v) :: rest else (k, w) :: insertChild rest n v

/-- Follow a path of child names down from a node. -/
def getNode : FSNode → List String → Option FSNode
  | n, [] => some n
  | n, s :: rest =>
    match lookupChild n.children s with
    | some c => getNode c rest
    | none => none

/-- Apply a function to the node at the given path (identity when absent). -/
def updateAt : FSNode → List String → (FSNode → FSNode) → FSNode
  | n, [], f => f n
  | n, s :: rest, f =>
    match lookupChild n.children s with
    | some c => n.withChildren (insertChild n.children s (updateAt c rest f))
    | none => n

/-- FileSystemType: the root node, the current node (kept as the path of the
current node from the root, since the commands only ever move the pointer to
nodes reachable inside the tree) and the Path string. -/
structure FSState where
  root : FSNode
  cur : List String
  path : String

/-- Dereference the Current pointer. -/
def curNode (st : FSState) : FSNode :=
  (getNode st.root st.cur).getD st.root

/-- The bait filesystem seeded by init() in src/unnamed/part_001. -/
def seedRoot : FSNode :=
  FSNode.mk true ""
    [("usr.txt", FSNode.mk false "eberk0, cswyne, edan, aroullier, john, henk" []),
     ("pwd.txt", FSNode.mk false "$2a$04$3ise9UoQ38ceyn6qUmb8neC8UyQnfNiog8ObMSPx.4KLV/vYU0XaC, $2a$04$Z2Orf4kkPuwncqrXae7L1uE5elj1Em9fhw4f8PmwS4POBAdvfzRPa, $2a$04$NkF1cDQf6CSkF83zfucmtO8.yChntXtG8HLB2zJJiZTiKIR2yHbTa, $2a$04$VFAUxOCo5hZuKjQqN6FW/.6TNoLQjFdId02Fk0pPhC0NmWiyUjwCW, $2a$04$y/dBmr4B7zWaNGpTNpjqUuZRHz9bxBaH0LwfEouan2283rBxoLWxu, $2a$04$ATK3lPdtQokdeoBJh.aOweV9h9yU6SMSQ24b7jXDZeUoHC0sMWmZS" []),
     ("checking_account.txt", FSNode.mk false "null, 4936739041871256, null, 5133014750298309, 3531203913896199, 4405957561612502" [])]

/-- The process-global FileSystem value right after init(). -/
def initFS : FSState :=
  { root := seedRoot, cur := [], path := "/" }

/- The command interpreter.  A commandContext carries argv, the pty flag and
the emulated user; stdin is threaded separately as the list of lines still
unread, stdout/stderr are returned as accumulated strings. -/

structure Ctx where
  args : List String
  pty : Bool
  user : String

/-- Result of one pure (non-shell) command: exit status, stdout, stderr and
the filesystem after the command. -/
structure CmdOut where
  status : Nat
  out : String
  errOut : String
  fs : FSState

/-- cmdTrue.execute. -/
def cmdTrueExecute (_ctx : Ctx) (st : FSState) : CmdOut :=
  ⟨0, "", "", st⟩

/-- cmdFalse.execute. -/
def cmdFalseExecute (_ctx : Ctx) (st : FSState) : CmdOut :=
  ⟨1, "", "", st⟩

/-- cmdEcho.execute: space-join argv[1:], newline, status 0. -/
def cmdEchoExecute (ctx : Ctx) (st : FSState) : CmdOut :=
  ⟨0, joinSpace ctx.args.tail ++ "\n", "", st⟩

/-- cmdPwd.execute: print FileSystem.Path and a newline. -/
def cmdPwdExecute (_ctx : Ctx) (st : FSState) : CmdOut :=
  ⟨0, st.path ++ "\n", "", st⟩

/-- cmdLs.execute: print each child name of the current directory. -/
def lsOut : List (String × FSNode) → String
  | [] => ""
  | (name, _) :: rest => name ++ "\n" ++ lsOut rest

def cmdLsExecute (_ctx : Ctx) (st : FSState) : CmdOut :=
  ⟨0, lsOut (curNode st).children, "", st⟩

/-- The loop body of cmdCat.execute: both branches return on the first file. -/
def catLoop (cur : FSNode) (st : FSState) : List String → CmdOut
  | [] => ⟨0, "", "", st⟩
  | f :: _ =>
    match lookupChild cur.children f with
    | some n =>
      if n.isDir then ⟨1, "", "cat: " ++ f ++ ": No such file or directory\n", st⟩
      else ⟨0, n.content ++ "\n", "", st⟩
    | none => ⟨1, "", "cat: " ++ f ++ ": No such file or directory\n", st⟩

/-- cmdCat.execute. -/
def cmdCatExecute (ctx : Ctx) (st : FSState) : CmdOut :=
  match ctx.args with
  | _ :: f :: files => catLoop (curNode st) st (f :: files)
  | _ => ⟨1, "", "cat: missing operand\n", st⟩

/-- The usage message printed by cmdTouch.execute (Fprintln appends the final newline). -/
def touchUsage : String :=
  "usage: touch [-A [-][[hh]mm]SS] [-achm] [-r file] [-t [[CC]YY]MMDDhhmm[.SS]]\n[-d YYYY-MM-DDThh:mm:SS[.frac][tz]] file ...\n"

/-- Children[file] = empty file node, for each file argument in order. -/
def touchFold (cs : List (String × FSNode)) (f : String) : List (String × FSNode) :=
  insertChild cs f (FSNode.mk false "" [])

/-- cmdTouch.execute. -/
def cmdTouchExecute (ctx : Ctx) (st : FSState) : CmdOut :=
  match ctx.args with
  | _ :: f :: files =>
    let newRoot := updateAt st.root st.cur
      (fun n => n.withChildren ((f :: files).foldl touchFold n.children))
    ⟨0, "", "", { st with root := newRoot }⟩
  | _ => ⟨1, "", touchUsage, st⟩

/-- The per-directory walk of cmdMkdir.execute: skip empty parts, create
missing children as directories, descend. -/
def mkdirAt : FSNode → List String → FSNode
  | n, [] => n
  | n, p :: rest =>
    if p = "" then mkdirAt n rest
    else
      let child :=
        match lookupChild n.children p with
        | some c => c
        | none => FSNode.mk true "" []
      n.withChildren (insertChild n.children p (mkdirAt child rest))

/-- cmdMkdir.execute. -/
def cmdMkdirExecute (ctx : Ctx) (st : FSState) : CmdOut :=
  match ctx.args with
  | _ :: d :: dirs =>
    let newRoot := (d :: dirs).foldl
      (fun r dir => updateAt r st.cur (fun n => mkdirAt n (goSplit (cleanPath dir) '/'))) st.root
    ⟨0, "", "", { st with root := newRoot }⟩
  | _ => ⟨1, "", "mkdir: missing operand\n", st⟩

/-- The walk of cmdCd.execute: "..", "." and "" are skipped, any other part
must name an existing directory child; returns the names actually descended. -/
def cdWalk : FSNode → List String → Option (List String)
  | _, [] => some []
  | n, s :: rest =>
    if s = ".." || s = "." || s = "" then cdWalk n rest
    else
      match lookupChild n.children s with
      | some c =>
        if c.isDir then Option.map (fun l => s :: l) (cdWalk c rest) else none
      | none => none

/-- cmdCd.execute. -/
def cmdCdExecute (ctx : Ctx) (st : FSState) : CmdOut :=
  match ctx.args with
  | _ :: target :: _ =>
    let targetPath := cleanPath target
    if targetPath = "/" then ⟨0, "", "", { st with cur := [], path := "/" }⟩
    else
      match cdWalk (curNode st) (goSplit targetPath '/') with
      | some ext => ⟨0, "", "", { st with cur := st.cur ++ ext, path := targetPath }⟩
      | none => ⟨1, "", "cd: " ++ targetPath ++ ": No such file or directory\n", st⟩
  | _ => ⟨0, "", "", { st with cur := [], path := "/" }⟩

/- The command registry and the executor (executeProgram), together with the
shell (cmdShell.execute) and su (cmdSu.execute), which re-enter the executor.
The mutual recursion is bounded by the number of stdin lines; a fuel
parameter makes it structural, with every theorem quantifying over the fuel
it needs. -/

/-- The keys and values of the commands registry map. -/
inductive Cmd where
  | sh
  | ctrue
  | cfalse
  | echo
  | cat
  | ls
  | touch
  | mkdir
  | cd
  | pwd
  | su

/-- The commands registry of src/unnamed/part_001. -/
def commands (name : String) : Option Cmd :=
  if name = "sh" then some Cmd.sh
  else if name = "true" then some Cmd.ctrue
  else if name = "false" then some Cmd.cfalse
  else if name = "echo" then some Cmd.echo
  else if name = "cat" then some Cmd.cat
  else if name = "ls" then some Cmd.ls
  else if name = "touch" then some Cmd.touch
  else if name = "mkdir" then some Cmd.mkdir
  else if name = "cd" then some Cmd.cd
  else if name = "pwd" then some Cmd.pwd
  else if name = "su" then some Cmd.su
  else none

/-- Decimal digit test. -/
def isDigitChar (c : Char) : Bool :=
  '0' ≤ c && c ≤ '9'

/-- Value of a decimal digit string. -/
def digitsVal (l : List Char) : Nat :=
  l.foldl (fun a c => a * 10 + (c.toNat - 48)) 0

/-- Go strconv.ParseUint(s, 10, 32): nonempty all-decimal strings whose value
fits in 32 bits; anything else (sign, other characters, overflow) errors. -/
def goParseUint32 (s : String) : Option Nat :=
  if s.data ≠ [] ∧ s.data.all isDigitChar = true ∧ digitsVal s.data < 2 ^ 32 then
    some (digitsVal s.data)
  else none

/-- The status computed by the shell's exit branch. -/
def exitStatus (lastStatus : Nat) (toks : List String) : Nat :=
  match toks with
  | [] => lastStatus
  | a :: _ =>
    match goParseUint32 a with
    | some v => v
    | none => 255

/-- The prompt written by cmdShell.execute before each read. -/
def shellPrompt (ctx : Ctx) : String :=
  if ctx.pty then (if ctx.user = "root" then "# " else "$ ") else ""

/-- The user installed by cmdSu.execute: argv[1] when present, else "root". -/
def suUser (args : List String) : String :=
  match args with
  | _ :: u :: _ => u
  | _ => "root"

/-- Which of the two mutually recursive bodies to run: executeProgram, or the
shell loop with its accumulated last status. -/
inductive CallKind where
  | prog : CallKind
  | shell (lastStatus : Nat) : CallKind

/-- Result of executeProgram or of a shell run: the returned uint32 status,
the accumulated stdout and stderr, the filesystem, the stdin lines not yet
consumed, and whether a (ReadLine) I/O error was returned alongside. -/
structure ExecRes where
  status : Nat
  out : String
  errOut : String
  fs : FSState
  rest : List String
  ioErr : Bool

/-- Lift a pure command result into an ExecRes (no stdin consumed, no error). -/
def liftCmd (o : CmdOut) (stdin : List String) : Option ExecRes :=
  some ⟨o.status, o.out, o.errOut, o.fs, stdin, false⟩

/-- Prefix previously accumulated stdout/stderr onto a later result. -/
def prependOut (pre preErr : String) : Option ExecRes → Option ExecRes
  | none => none
  | some r => some ⟨r.status, pre ++ r.out, preErr ++ r.errOut, r.fs, r.rest, r.ioErr⟩

/-- The combined interpreter: executeProgram dispatch and the cmdShell loop
from src/unnamed/part_001, structural in the fuel (none is returned only on
fuel exhaustion, which enough fuel rules out). -/
def interp : Nat → CallKind → Ctx → List String → FSState → Option ExecRes
  | 0, _, _, _, _ => none
  | fuel + 1, CallKind.prog, ctx, stdin, fs =>
    match ctx.args with
    | [] => some ⟨0, "", "", fs, stdin, false⟩
    | name :: _ =>
      match commands name with
      | none => some ⟨127, "", name ++ ": command not found\n", fs, stdin, false⟩
      | some Cmd.sh => interp fuel (CallKind.shell 0) ctx stdin fs
      | some Cmd.su =>
        interp fuel CallKind.prog { ctx with user := suUser ctx.args, args := ["sh"] } stdin fs
      | some Cmd.ctrue => liftCmd (cmdTrueExecute ctx fs) stdin
      | some Cmd.cfalse => liftCmd (cmdFalseExecute ctx fs) stdin
      | some Cmd.echo => liftCmd (cmdEchoExecute ctx fs) stdin
      | some Cmd.cat => liftCmd (cmdCatExecute ctx fs) stdin
      | some Cmd.ls => liftCmd (cmdLsExecute ctx fs) stdin
      | some Cmd.touch => liftCmd (cmdTouchExecute ctx fs) stdin
      | some Cmd.mkdir => liftCmd (cmdMkdirExecute ctx fs) stdin
      | some Cmd.cd => liftCmd (cmdCdExecute ctx fs) stdin
      | some Cmd.pwd => liftCmd (cmdPwdExecute ctx fs) stdin
  | fuel + 1, CallKind.shell lastStatus, ctx, stdin, fs =>
    let prompt := shellPrompt ctx
    match stdin with
    | [] => some ⟨lastStatus, prompt, "", fs, [], true⟩
    | line :: rest =>
      match goFields line with
      | [] => prependOut prompt "" (interp fuel (CallKind.shell lastStatus) ctx rest fs)
      | tok :: toks =>
        if tok = "exit" then
          some ⟨exitStatus lastStatus toks, prompt, "", fs, rest, false⟩
        else
          match interp fuel CallKind.prog { ctx with args := tok :: toks } rest fs with
          | none => none
          | some r =>
            if r.ioErr then some ⟨r.status, prompt ++ r.out, r.errOut, r.fs, r.rest, true⟩
            else prependOut (prompt ++ r.out) r.errOut (interp fuel (CallKind.shell r.status) ctx r.rest r.fs)

/-- executeProgram of src/unnamed/part_001 (fuelled). -/
def executeProgram (fuel : Nat) (ctx : Ctx) (stdin : List String) (fs : FSState) : Option ExecRes :=
  interp fuel CallKind.prog ctx stdin fs

/-- cmdShell.execute of src/unnamed/part_001 (fuelled). -/
def cmdShellExecute (fuel : Nat) (ctx : Ctx) (stdin : List String) (fs : FSState)
    (lastStatus : Nat) : Option ExecRes :=
  interp fuel (CallKind.shell lastStatus) ctx stdin fs

/-- The body of command.execute(context) for a registered command, used to
state that the executor returns the registered handler's result. -/
def execCommand (fuel : Nat) (c : Cmd) (ctx : Ctx) (stdin : List String) (fs : FSState) :
    Option ExecRes :=
  match c with
  | Cmd.sh => interp fuel (CallKind.shell 0) ctx stdin fs
  | Cmd.su =>
    interp fuel CallKind.prog { ctx with user := suUser ctx.args, args := ["sh"] } stdin fs
  | Cmd.ctrue => liftCmd (cmdTrueExecute ctx fs) stdin
  | Cmd.cfalse => liftCmd (cmdFalseExecute ctx fs) stdin
  | Cmd.echo => liftCmd (cmdEchoExecute ctx fs) stdin
  | Cmd.cat => liftCmd (cmdCatExecute ctx fs) stdin
  | Cmd.ls => liftCmd (cmdLsExecute ctx fs) stdin
  | Cmd.touch => liftCmd (cmdTouchExecute ctx fs) stdin
  | Cmd.mkdir => liftCmd (cmdMkdirExecute ctx fs) stdin
  | Cmd.cd => liftCmd (cmdCdExecute ctx fs) stdin
  | Cmd.pwd => liftCmd (cmdPwdExecute ctx fs) stdin

/- Password authentication (src/auth.go, getPasswordCallback). -/

/-- auth.password configuration. -/
structure PasswordAuthConfig where
  enabled : Bool
  accepted : Bool

/-- The configuration fields consumed by getPasswordCallback. -/
structure AuthCfg where
  passwordAuth : PasswordAuthConfig
  validUser : String
  validPass : String

/-- One passwordAuthLog event record. -/
structure PasswordAuthLogEntry where
  user : String
  accepted : Bool
  password : String
  deriving DecidableEq

/-- Outcome of one password attempt: whether the callback returns a nil
error, the error message when not, and the events logged. -/
structure PasswordAuthOutcome where
  success : Bool
  errMessage : Option String
  logs : List PasswordAuthLogEntry

/-- The body of the password callback in src/auth.go: valid credentials
succeed (logged with the configured accepted flag); everything else is
logged as not accepted and rejected with an empty error string. -/
def passwordAttempt (cfg : AuthCfg) (user pass : String) : PasswordAuthOutcome :=
  if user = cfg.validUser && pass = cfg.validPass then
    ⟨true, none, [⟨user, cfg.passwordAuth.accepted, pass⟩]⟩
  else
    ⟨false, some "", [⟨user, false, pass⟩]⟩

/-- getPasswordCallback: nil when password auth is disabled. -/
def getPasswordCallback (cfg : AuthCfg) : Option (String → String → PasswordAuthOutcome) :=
  if cfg.passwordAuth.enabled then some (passwordAttempt cfg) else none

/- Banner rendering (src/auth.go, getBannerCallback). -/

/-- Go strings.ReplaceAll(s, crlf, lf): left-to-right, non-overlapping. -/
def crlfToLf : List Char → List Char
  | '\r' :: '\n' :: rest => '\n' :: crlfToLf rest
  | c :: rest => c :: crlfToLf rest
  | [] => []

/-- Go strings.ReplaceAll(s, lf, crlf): the inserted lf is not rescanned. -/
def lfToCrlf : List Char → List Char
  | '\n' :: rest => '\r' :: '\n' :: lfToCrlf rest
  | c :: rest => c :: lfToCrlf rest
  | [] => []

/-- Go strings.HasSuffix(s, crlf). -/
def endsWithCRLF (l : List Char) : Bool :=
  match l.reverse with
  | '\n' :: '\r' :: _ => true
  | _ => false

/-- getBannerCallback: nil for an empty banner, otherwise the fixed string
the callback returns for every connection. -/
def getBannerCallback (configured : String) : Option String :=
  if configured = "" then none
  else
    let banner := String.mk (lfToCrlf (crlfToLf configured.data))
    some (if endsWithCRLF banner.data then banner else banner ++ "\r\n")

/-- Definition following the claim's words (for comparison with the source):
the configured string with every lf converted to crlf and a trailing crlf
appended when not already present. -/
def bannerClaimedTransform (configured : String) : String :=
  let banner := String.mk (lfToCrlf configured.data)
  if endsWithCRLF banner.data then banner else banner ++ "\r\n"

/- Direct-tcpip channel handling (src/tcpip.go, handleDirectTCPIPChannel).
The handler is modelled by the trace of its externally visible actions; the
select fan-in over emulator input, emulator error and channel requests is
projected onto the request stream, which the handler serves in arrival
order. -/

/-- A channel request as seen by the handler. -/
structure ChannelRequest where
  wantReply : Bool

/-- Externally visible actions of the direct-tcpip handler. -/
inductive TCPIPAction where
  | accept
  | reject
  | logNewChannel
  | logUnsupported
  | logChannelClosed
  | reply (success : Bool)
  | closeChannel
  deriving DecidableEq

/-- The servers registry of src/tcpip.go keyed by port (port 80 only). -/
def servers (port : Nat) : Bool :=
  port = 80

/-- The request arm of the handler's select loop: requests with want_reply
set are replied to with success=false, the others are not replied to. -/
def processRequests : List ChannelRequest → List TCPIPAction
  | [] => []
  | r :: rest =>
    if r.wantReply then TCPIPAction.reply false :: processRequests rest
    else processRequests rest

/-- handleDirectTCPIPChannel: accept, log the accepted channel, then either
log the unsupported port and return, or serve the requests; the deferred
"Channel closed" log entry runs on return. -/
def handleDirectTCPIPChannel (port : Nat) (requests : List ChannelRequest) : List TCPIPAction :=
  TCPIPAction.accept :: TCPIPAction.logNewChannel ::
    (if servers port then processRequests requests ++ [TCPIPAction.logChannelClosed]
     else [TCPIPAction.logUnsupported, TCPIPAction.logChannelClosed])

/-- Modelled from the spec: the connection orchestrator that invokes
handleDirectTCPIPChannel is not under src/; per the spec it closes the
channel when the handler returns ("close the channel; do not reject after
accept — accept then close is the required behavior"). -/
def handleDirectTCPIPChannelWithCaller (port : Nat) (requests : List ChannelRequest) :
    List TCPIPAction :=
  handleDirectTCPIPChannel port requests ++ [TCPIPAction.closeChannel]

/-- Reply actions in a trace. -/
def isReplyAction : TCPIPAction → Bool
  | TCPIPAction.reply _ => true
  | _ => false

/- Helper lemmas about the children maps and the node tree. -/

theorem children_withChildren (n : FSNode) (cs : List (String × FSNode)) :
    (n.withChildren cs).children = cs := by
  cases n
  rfl

theorem lookupChild_insertChild_self (cs : List (String × FSNode)) (k : String) (v : FSNode) :
    lookupChild (insertChild cs k v) k = some v := by
  induction cs with
  | nil => simp [insertChild, lookupChild]
  | cons p rest ih =>
    obtain ⟨a, w⟩ := p
    by_cases h : a = k
    · simp [insertChild, h, lookupChild]
    · simp [insertChild, h, lookupChild, ih]

theorem lookupChild_insertChild_ne (cs : List (String × FSNode)) (k k' : String) (v : FSNode)
    (h : k' ≠ k) : lookupChild (insertChild cs k v) k' = lookupChild cs k' := by
  induction cs with
  | nil => simp [insertChild, lookupChild, Ne.symm h]
  | cons p rest ih =>
    obtain ⟨a, w⟩ := p
    by_cases ha : a = k
    · subst ha
      simp [insertChild, lookupChild, Ne.symm h]
    · simp [insertChild, ha, lookupChild, ih]

theorem lookupChild_mem (cs : List (String × FSNode)) (k : String) (v : FSNode)
    (h : lookupChild cs k = some v) : (k, v) ∈ cs := by
  induction cs with
  | nil => simp [lookupChild] at h
  | cons p rest ih =>
    obtain ⟨a, w⟩ := p
    by_cases ha : a = k
    · subst ha
      simp [lookupChild] at h
      simp [h]
    · simp [lookupChild, ha] at h
      simp [ih h]

theorem getNode_updateAt (p : List String) (root : FSNode) (g : FSNode → FSNode) (n : FSNode)
    (h : getNode root p = some n) :
    getNode (updateAt root p g) p = some (g n) := by
  induction p generalizing root with
  | nil =>
    simp [getNode] at h
    subst h
    simp [updateAt, getNode]
  | cons s rest ih =>
    simp only [getNode] at h ⊢
    cases hc : lookupChild root.children s with
    | none => rw [hc] at h; cases h
    | some c =>
      rw [hc] at h
      simp only [updateAt, hc, children_withChildren, lookupChild_insertChild_self]
      exact ih c h

theorem lookupChild_touchFoldl (gs : List String) (cs : List (String × FSNode)) (g : String)
    (h : g ∈ gs ∨ lookupChild cs g = some (FSNode.mk false "" [])) :
    lookupChild (gs.foldl touchFold cs) g = some (FSNode.mk false "" []) := by
  induction gs generalizing cs with
  | nil =>
    rcases h with h | h
    · simp at h
    · simpa using h
  | cons f rest ih =>
    simp only [List.foldl_cons]
    apply ih
    by_cases hm : g ∈ rest
    · exact Or.inl hm
    · rcases h with h | h
      · simp at h
        rcases h with h | h
        · subst h
          exact Or.inr (lookupChild_insertChild_self cs g (FSNode.mk false "" []))
        · exact absurd h hm
      · by_cases hg : g = f
        · subst hg
          exact Or.inr (lookupChild_insertChild_self cs g (FSNode.mk false "" []))
        · refine Or.inr ?_
          rw [touchFold, lookupChild_insertChild_ne cs f g _ hg]
          exact h

theorem crlfToLf_no_cr (l : List Char) (h : '\r' ∉ l) : crlfToLf l = l := by
  induction l with
  | nil => rfl
  | cons c rest ih =>
    have hc : c ≠ '\r' := by
      intro e
      exact h (by simp [e])
    have hr : '\r' ∉ rest := fun m => h (List.mem_cons_of_mem _ m)
    cases rest with
    | nil => simp [crlfToLf]
    | cons d rest2 =>
      rw [crlfToLf.eq_def]
      split
      · rename_i heq
        injection heq with h1 _
        exact absurd h1 hc
      · rename_i x heq2
        injection heq2 with h1 h2
        subst h1
        subst h2
        rw [ih hr]
      · rename_i heq3
        simp at heq3

theorem endsWithCRLF_append (l : List Char) : endsWithCRLF (l ++ ['\r', '\n']) = true := by
  simp [endsWithCRLF, List.reverse_append]

theorem filter_processRequests (requests : List ChannelRequest) :
    List.filter isReplyAction (processRequests requests)
      = List.replicate (List.countP (fun r => r.wantReply) requests) (TCPIPAction.reply false) := by
  induction requests with
  | nil => simp [processRequests]
  | cons r rest ih =>
    by_cases h : r.wantReply
    · simp [processRequests, h, List.countP_cons, isReplyAction, ih, List.replicate_succ]
    · simp [processRequests, h, List.countP_cons, ih]

/- Claim theorems. -/

/-- Claim C1: executeProgram returns 0 on an empty argv; when argv[0] is not
a key of the commands registry it writes exactly the one line
"argv[0]: command not found\n" to stderr and returns 127; otherwise it
invokes the registered handler on the given context and returns that
handler's result. -/
theorem executeProgram_dispatch (fuel : Nat) (ctx : Ctx) (stdin : List String) (fs : FSState) :
    (ctx.args = [] → executeProgram (fuel + 1) ctx stdin fs = some ⟨0, "", "", fs, stdin, false⟩)
    ∧ (∀ name rest, ctx.args = name :: rest → commands name = none →
        executeProgram (fuel + 1) ctx stdin fs
          = some ⟨127, "", name ++ ": command not found\n", fs, stdin, false⟩)
    ∧ (∀ name rest c, ctx.args = name :: rest → commands name = some c →
        executeProgram (fuel + 1) ctx stdin fs = execCommand fuel c ctx stdin fs) := by
  refine ⟨?_, ?_, ?_⟩
  · intro h
    simp [executeProgram, interp, h]
  · intro name rest h hc
    simp [executeProgram, interp, h, hc]
  · intro name rest c h hc
    cases c <;> simp [executeProgram, interp, execCommand, h, hc]

/-- Witness for C1: concrete dispatches of an unknown command and of an empty
argv. -/
theorem executeProgram_dispatch_witness :
    executeProgram 1 ⟨["foo"], false, "guest"⟩ [] initFS
      = some ⟨127, "", "foo: command not found\n", initFS, [], false⟩
    ∧ executeProgram 1 ⟨[], false, "guest"⟩ [] initFS = some ⟨0, "", "", initFS, [], false⟩
    ∧ executeProgram 1 ⟨["true"], false, "guest"⟩ [] initFS
      = execCommand 0 Cmd.ctrue ⟨["true"], false, "guest"⟩ [] initFS := by
  refine ⟨?_, ?_, ?_⟩
  · exact (executeProgram_dispatch 0 ⟨["foo"], false, "guest"⟩ [] initFS).2.1 "foo" [] rfl rfl
  · exact (executeProgram_dispatch 0 ⟨[], false, "guest"⟩ [] initFS).1 rfl
  · exact (executeProgram_dispatch 0 ⟨["true"], false, "guest"⟩ [] initFS).2.2 "true" [] Cmd.ctrue rfl rfl

/-- Claim C2 counterexample: "usr.txt" exists in the seeded filesystem and the
user is not "root", yet touch returns 0, prints no permission-denied line,
and wipes the file's content, contradicting the claimed permission check. -/
theorem cmdTouch_permission_counterexample :
    Option.map FSNode.content (lookupChild (curNode initFS).children "usr.txt")
      = some "eberk0, cswyne, edan, aroullier, john, henk"
    ∧ (cmdTouchExecute ⟨["touch", "usr.txt"], false, "guest"⟩ initFS).status = 0
    ∧ (cmdTouchExecute ⟨["touch", "usr.txt"], false, "guest"⟩ initFS).status ≠ 1
    ∧ (cmdTouchExecute ⟨["touch", "usr.txt"], false, "guest"⟩ initFS).out = ""
    ∧ (cmdTouchExecute ⟨["touch", "usr.txt"], false, "guest"⟩ initFS).errOut = ""
    ∧ Option.map FSNode.content
        (lookupChild (curNode (cmdTouchExecute ⟨["touch", "usr.txt"], false, "guest"⟩ initFS).fs).children
          "usr.txt")
      = some "" := by
  exact ⟨rfl, rfl, by decide, rfl, rfl, rfl⟩

/-- Claim C2 (amended): touch with no file argument prints the usage line to
stderr and returns 1; with file arguments it creates or overwrites every
named entry as an empty file — regardless of the user and of whether the
name already exists — prints nothing, and returns 0. -/
theorem cmdTouch_amended (p : Bool) (u : String) (st : FSState) (n : FSNode)
    (f : String) (files : List String)
    (h : getNode st.root st.cur = some n) :
    cmdTouchExecute ⟨["touch"], p, u⟩ st = ⟨1, "", touchUsage, st⟩
    ∧ (cmdTouchExecute ⟨"touch" :: f :: files, p, u⟩ st).status = 0
    ∧ (cmdTouchExecute ⟨"touch" :: f :: files, p, u⟩ st).out = ""
    ∧ (cmdTouchExecute ⟨"touch" :: f :: files, p, u⟩ st).errOut = ""
    ∧ ∀ g, g ∈ f :: files →
        lookupChild (curNode (cmdTouchExecute ⟨"touch" :: f :: files, p, u⟩ st).fs).children g
          = some (FSNode.mk false "" []) := by
  refine ⟨rfl, rfl, rfl, rfl, ?_⟩
  intro g hg
  have hupd := getNode_updateAt st.cur st.root
    (fun m => m.withChildren ((f :: files).foldl touchFold m.children)) n h
  simp only [cmdTouchExecute, curNode, hupd, Option.getD_some, children_withChildren]
  exact lookupChild_touchFoldl (f :: files) n.children g (Or.inl hg)

/-- Witness for C2 (amended): touching the existing "usr.txt" at the seeded
filesystem succeeds and leaves an empty file. -/
theorem cmdTouch_amended_witness :
    (cmdTouchExecute ⟨["touch", "usr.txt"], true, "root"⟩ initFS).status = 0
    ∧ lookupChild (curNode (cmdTouchExecute ⟨["touch", "usr.txt"], true, "root"⟩ initFS).fs).children
        "usr.txt" = some (FSNode.mk false "" []) := by
  have h := cmdTouch_amended true "root" initFS seedRoot "usr.txt" [] rfl
  exact ⟨h.2.1, h.2.2.2.2 "usr.txt" (by simp)⟩

/-- Claim C3 counterexample: cat with zero extra arguments does not quietly
return 0 — it prints "cat: missing operand" to stderr and returns 1. -/
theorem cmdCat_zero_args_counterexample :
    (cmdCatExecute ⟨["cat"], false, "guest"⟩ initFS).status = 1
    ∧ (cmdCatExecute ⟨["cat"], false, "guest"⟩ initFS).status ≠ 0
    ∧ (cmdCatExecute ⟨["cat"], false, "guest"⟩ initFS).errOut = "cat: missing operand\n" := by
  exact ⟨rfl, by decide, rfl⟩

/-- Claim C3 (amended): cat with zero extra arguments prints
"cat: missing operand\n" to stderr and returns 1; with arguments it examines
only the first one — returning that file's content plus a newline on stdout
with status 0 when it exists and is not a directory, and the error line on
stderr with status 1 otherwise — and ignores every further argument. -/
theorem cmdCat_amended (p : Bool) (u : String) (st : FSState) :
    cmdCatExecute ⟨["cat"], p, u⟩ st = ⟨1, "", "cat: missing operand\n", st⟩
    ∧ (∀ f files files2, cmdCatExecute ⟨"cat" :: f :: files, p, u⟩ st
        = cmdCatExecute ⟨"cat" :: f :: files2, p, u⟩ st)
    ∧ (∀ f files n, lookupChild (curNode st).children f = some n → n.isDir = false →
        cmdCatExecute ⟨"cat" :: f :: files, p, u⟩ st = ⟨0, n.content ++ "\n", "", st⟩)
    ∧ (∀ f files n, lookupChild (curNode st).children f = some n → n.isDir = true →
        cmdCatExecute ⟨"cat" :: f :: files, p, u⟩ st
          = ⟨1, "", "cat: " ++ f ++ ": No such file or directory\n", st⟩)
    ∧ (∀ f files, lookupChild (curNode st).children f = none →
        cmdCatExecute ⟨"cat" :: f :: files, p, u⟩ st
          = ⟨1, "", "cat: " ++ f ++ ": No such file or directory\n", st⟩) := by
  refine ⟨rfl, ?_, ?_, ?_, ?_⟩
  · intro f files files2
    rfl
  · intro f files n hl hd
    simp [cmdCatExecute, catLoop, hl, hd]
  · intro f files n hl hd
    simp [cmdCatExecute, catLoop, hl, hd]
  · intro f files hl
    simp [cmdCatExecute, catLoop, hl]

/-- Witness for C3 (amended): cat of the bait file "pwd.txt" prints its
content and returns 0; cat of a missing file returns 1 with the error line. -/
theorem cmdCat_amended_witness :
    cmdCatExecute ⟨["cat", "pwd.txt", "ignored"], false, "guest"⟩ initFS
      = ⟨0, "$2a$04$3ise9UoQ38ceyn6qUmb8neC8UyQnfNiog8ObMSPx.4KLV/vYU0XaC, $2a$04$Z2Orf4kkPuwncqrXae7L1uE5elj1Em9fhw4f8PmwS4POBAdvfzRPa, $2a$04$NkF1cDQf6CSkF83zfucmtO8.yChntXtG8HLB2zJJiZTiKIR2yHbTa, $2a$04$VFAUxOCo5hZuKjQqN6FW/.6TNoLQjFdId02Fk0pPhC0NmWiyUjwCW, $2a$04$y/dBmr4B7zWaNGpTNpjqUuZRHz9bxBaH0LwfEouan2283rBxoLWxu, $2a$04$ATK3lPdtQokdeoBJh.aOweV9h9yU6SMSQ24b7jXDZeUoHC0sMWmZS\n", "", initFS⟩
    ∧ cmdCatExecute ⟨["cat", "nope.txt"], false, "guest"⟩ initFS
      = ⟨1, "", "cat: nope.txt: No such file or directory\n", initFS⟩ := by
  refine ⟨?_, ?_⟩
  · exact (cmdCat_amended false "guest" initFS).2.2.1 "pwd.txt" ["ignored"] _ rfl rfl
  · exact (cmdCat_amended false "guest" initFS).2.2.2.2 "nope.txt" [] rfl

/-- Claim C4: a non-empty input line whose first token is "exit" makes the
shell return immediately: with no second token it returns the accumulated
last-status; with a second token that is a decimal numeral whose value is
below 2^32 it returns exactly that value; with any other second token it
returns 255.  The remaining stdin is untouched and no error is returned. -/
theorem cmdShell_exit (fuel : Nat) (ctx : Ctx) (fs : FSState) (lastStatus : Nat)
    (line : String) (rest : List String) (toks : List String)
    (h : goFields line = "exit" :: toks) :
    cmdShellExecute (fuel + 1) ctx (line :: rest) fs lastStatus
      = some ⟨exitStatus lastStatus toks, shellPrompt ctx, "", fs, rest, false⟩
    ∧ (toks = [] → exitStatus lastStatus toks = lastStatus)
    ∧ (∀ a rest2, toks = a :: rest2 → a.data ≠ [] → a.data.all isDigitChar = true →
        digitsVal a.data < 2 ^ 32 → exitStatus lastStatus toks = digitsVal a.data)
    ∧ (∀ a rest2, toks = a :: rest2 →
        ¬(a.data ≠ [] ∧ a.data.all isDigitChar = true ∧ digitsVal a.data < 2 ^ 32) →
        exitStatus lastStatus toks = 255) := by
  refine ⟨?_, ?_, ?_, ?_⟩
  · simp [cmdShellExecute, interp, h]
  · intro h0
    simp [exitStatus, h0]
  · intro a rest2 ht hne hall hlt
    have hp : goParseUint32 a = some (digitsVal a.data) := by
      unfold goParseUint32
      exact if_pos ⟨hne, hall, hlt⟩
    simp [exitStatus, ht, hp]
  · intro a rest2 ht hn
    have hp : goParseUint32 a = none := by
      unfold goParseUint32
      exact if_neg hn
    simp [exitStatus, ht, hp]

/-- Witness for C4: "exit 7" returns 7 with the rest of stdin untouched;
"exit foo" returns 255; "exit" alone returns the accumulated status 3. -/
theorem cmdShell_exit_witness :
    cmdShellExecute 1 ⟨["sh"], false, "guest"⟩ ["exit 7", "later"] initFS 3
      = some ⟨7, "", "", initFS, ["later"], false⟩
    ∧ cmdShellExecute 1 ⟨["sh"], false, "guest"⟩ ["exit foo"] initFS 3
      = some ⟨255, "", "", initFS, [], false⟩
    ∧ cmdShellExecute 1 ⟨["sh"], false, "guest"⟩ ["exit"] initFS 3
      = some ⟨3, "", "", initFS, [], false⟩ := by
  refine ⟨?_, ?_, ?_⟩
  · exact (cmdShell_exit 0 ⟨["sh"], false, "guest"⟩ initFS 3 "exit 7" ["later"] ["7"] rfl).1
  · exact (cmdShell_exit 0 ⟨["sh"], false, "guest"⟩ initFS 3 "exit foo" [] ["foo"] rfl).1
  · exact (cmdShell_exit 0 ⟨["sh"], false, "guest"⟩ initFS 3 "exit" [] [] rfl).1

/-- Claim C5 counterexample: in a shell, mkdir a/b/c; cd a/b/c; pwd prints
"a/b/c\n", not "/a/b/c\n" — cd stores the cleaned argument verbatim, so a
relative cd leaves a relative path for pwd to report. -/
theorem pwd_scenario_counterexample :
    Option.map ExecRes.out (cmdShellExecute 20 ⟨["sh"], false, "guest"⟩
        ["mkdir a/b/c", "cd a/b/c", "pwd"] initFS 0) = some "a/b/c\n"
    ∧ Option.map ExecRes.out (cmdShellExecute 20 ⟨["sh"], false, "guest"⟩
        ["mkdir a/b/c", "cd a/b/c", "pwd"] initFS 0) ≠ some "/a/b/c\n" := by
  exact ⟨rfl, by decide⟩

/-- Claim C5 (amended): pwd writes the stored FileSystem.Path followed by a
newline and returns 0, but that stored path is whatever cleaned argument the
last cd installed and need not be absolute: the mkdir a/b/c; cd a/b/c; pwd
scenario prints "a/b/c\n". -/
theorem cmdPwd_amended :
    (∀ ctx st, cmdPwdExecute ctx st = ⟨0, st.path ++ "\n", "", st⟩)
    ∧ Option.map ExecRes.out (cmdShellExecute 20 ⟨["sh"], false, "guest"⟩
        ["mkdir a/b/c", "cd a/b/c", "pwd"] initFS 0) = some "a/b/c\n"
    ∧ Option.map ExecRes.status (cmdShellExecute 20 ⟨["sh"], false, "guest"⟩
        ["mkdir a/b/c", "cd a/b/c", "pwd"] initFS 0) = some 0 := by
  exact ⟨fun ctx st => rfl, rfl, rfl⟩

/-- Claim C6 counterexample: after mkdir a; cd a, running cd .. does not move
to the parent — the current directory stays at the node named "a" (a
non-empty position, not the root's) while the command still returns 0, and
the reported path becomes ".." rather than the parent's path. -/
theorem cd_dotdot_counterexample :
    (cmdCdExecute ⟨["cd", ".."], false, "guest"⟩
        (cmdCdExecute ⟨["cd", "a"], false, "guest"⟩
          (cmdMkdirExecute ⟨["mkdir", "a"], false, "guest"⟩ initFS).fs).fs).fs.cur = ["a"]
    ∧ (cmdCdExecute ⟨["cd", ".."], false, "guest"⟩
        (cmdCdExecute ⟨["cd", "a"], false, "guest"⟩
          (cmdMkdirExecute ⟨["mkdir", "a"], false, "guest"⟩ initFS).fs).fs).fs.cur ≠ []
    ∧ (cmdCdExecute ⟨["cd", ".."], false, "guest"⟩
        (cmdCdExecute ⟨["cd", "a"], false, "guest"⟩
          (cmdMkdirExecute ⟨["mkdir", "a"], false, "guest"⟩ initFS).fs).fs).status = 0
    ∧ (cmdCdExecute ⟨["cd", ".."], false, "guest"⟩
        (cmdCdExecute ⟨["cd", "a"], false, "guest"⟩
          (cmdMkdirExecute ⟨["mkdir", "a"], false, "guest"⟩ initFS).fs).fs).fs.path = ".." := by
  exact ⟨rfl, by decide, rfl, rfl⟩

/-- Claim C6 (amended): ".." segments that survive lexical cleaning are
skipped by cd's walk instead of moving to a parent: cd .. from any state —
the root included — leaves the current-directory node unchanged and returns
0 without an error message, but installs ".." as the reported path (so at
the root it is a no-op for the current directory, yet the reported path
changes from "/" to ".."). -/
theorem cd_dotdot_amended (p : Bool) (u : String) (st : FSState) :
    cmdCdExecute ⟨["cd", ".."], p, u⟩ st = ⟨0, "", "", { st with path := ".." }⟩ := by
  show (⟨0, "", "", { st with cur := st.cur ++ [], path := ".." }⟩ : CmdOut) = _
  rw [List.append_nil]

/-- Claim C7 counterexample: with password auth enabled and
auth.password.accepted set to true, an attempt that does not match
valid_user/valid_pass is still rejected — the code accepts only the valid
credentials and fails every other attempt regardless of the accepted flag. -/
theorem passwordAuth_accepted_counterexample :
    (passwordAttempt ⟨⟨true, true⟩, "validuser", "hunter2"⟩ "attacker" "x").success = false
    ∧ (⟨⟨true, true⟩, "validuser", "hunter2"⟩ : AuthCfg).passwordAuth.accepted = true
    ∧ (passwordAttempt ⟨⟨true, true⟩, "validuser", "hunter2"⟩ "attacker" "x").errMessage
        = some ""
    ∧ getPasswordCallback ⟨⟨true, true⟩, "validuser", "hunter2"⟩
        = some (passwordAttempt ⟨⟨true, true⟩, "validuser", "hunter2"⟩) := by
  exact ⟨rfl, rfl, rfl, rfl⟩

/-- Claim C7 (amended): when password auth is enabled, an attempt with
valid_user/valid_pass succeeds unconditionally (logged with the configured
accepted flag); every other attempt is rejected unconditionally — the
accepted flag notwithstanding — with an error whose message is the empty
string and logged as not accepted; every attempt logs exactly one event. -/
theorem passwordAuth_amended (cfg : AuthCfg) (user pass : String) :
    (user = cfg.validUser → pass = cfg.validPass →
      passwordAttempt cfg user pass
        = ⟨true, none, [⟨user, cfg.passwordAuth.accepted, pass⟩]⟩)
    ∧ (¬(user = cfg.validUser ∧ pass = cfg.validPass) →
      passwordAttempt cfg user pass = ⟨false, some "", [⟨user, false, pass⟩]⟩)
    ∧ ((passwordAttempt cfg user pass).success = false →
      (passwordAttempt cfg user pass).errMessage = some "")
    ∧ (passwordAttempt cfg user pass).logs.length = 1
    ∧ (cfg.passwordAuth.enabled = true →
      getPasswordCallback cfg = some (passwordAttempt cfg)) := by
  refine ⟨?_, ?_, ?_, ?_, ?_⟩
  · intro h1 h2
    simp [passwordAttempt, h1, h2]
  · intro hn
    have hb : (user = cfg.validUser && pass = cfg.validPass) = false := by
      rcases Decidable.em (user = cfg.validUser) with h1 | h1
      · rcases Decidable.em (pass = cfg.validPass) with h2 | h2
        · exact absurd ⟨h1, h2⟩ hn
        · simp [h2]
      · simp [h1]
    simp [passwordAttempt, hb]
  · intro hs
    by_cases hb : (user = cfg.validUser && pass = cfg.validPass) = true
    · simp [passwordAttempt, hb] at hs
    · simp at hb
      rcases Decidable.em (user = cfg.validUser) with h1 | h1
      · simp [passwordAttempt, h1, hb h1]
      · simp [passwordAttempt, h1]
  · by_cases hb : (user = cfg.validUser && pass = cfg.validPass) = true
    · simp [passwordAttempt, hb]
    · simp only [Bool.not_eq_true] at hb
      simp [passwordAttempt, hb]
  · intro he
    simp [getPasswordCallback, he]

/-- Witness for C7 (amended): the valid credentials succeed even with
accepted=false; a wrong password is rejected with an empty error message. -/
theorem passwordAuth_amended_witness :
    passwordAttempt ⟨⟨true, false⟩, "validuser", "hunter2"⟩ "validuser" "hunter2"
      = ⟨true, none, [⟨"validuser", false, "hunter2"⟩]⟩
    ∧ passwordAttempt ⟨⟨true, false⟩, "validuser", "hunter2"⟩ "validuser" "wrong"
      = ⟨false, some "", [⟨"validuser", false, "wrong"⟩]⟩ := by
  refine ⟨?_, ?_⟩
  · exact (passwordAuth_amended ⟨⟨true, false⟩, "validuser", "hunter2"⟩ "validuser" "hunter2").1
      rfl rfl
  · exact (passwordAuth_amended ⟨⟨true, false⟩, "validuser", "hunter2"⟩ "validuser" "wrong").2.1
      (by simp)

/-- Claim C8: a direct-tcpip channel whose destination port has no registered
emulator is accepted and then closed — no reject ever appears after the
accept — with the unsupported-port event logged; and while a channel is
being serviced every channel request gets exactly one success=false reply
iff its want_reply flag is set. -/
theorem tcpip_unsupported_and_request_replies (port : Nat) (requests : List ChannelRequest) :
    (servers port = false →
      handleDirectTCPIPChannelWithCaller port requests
        = [TCPIPAction.accept, TCPIPAction.logNewChannel, TCPIPAction.logUnsupported,
           TCPIPAction.logChannelClosed, TCPIPAction.closeChannel]
      ∧ TCPIPAction.reject ∉ handleDirectTCPIPChannelWithCaller port requests)
    ∧ (servers port = true →
      List.filter isReplyAction (handleDirectTCPIPChannel port requests)
        = List.replicate (List.countP (fun r => r.wantReply) requests)
            (TCPIPAction.reply false)) := by
  refine ⟨?_, ?_⟩
  · intro h
    refine ⟨?_, ?_⟩
    · simp [handleDirectTCPIPChannelWithCaller, handleDirectTCPIPChannel, h]
    · simp [handleDirectTCPIPChannelWithCaller, handleDirectTCPIPChannel, h]
  · intro h
    simp [handleDirectTCPIPChannel, h, List.filter, isReplyAction, filter_processRequests]

/-- Witness for C8: port 25 (no emulator) yields accept-then-close with the
unsupported log and no reject; port 80 with one want_reply request and one
without yields exactly one false reply. -/
theorem tcpip_witness :
    handleDirectTCPIPChannelWithCaller 25 [⟨true⟩]
      = [TCPIPAction.accept, TCPIPAction.logNewChannel, TCPIPAction.logUnsupported,
         TCPIPAction.logChannelClosed, TCPIPAction.closeChannel]
    ∧ List.filter isReplyAction (handleDirectTCPIPChannel 80 [⟨true⟩, ⟨false⟩])
      = [TCPIPAction.reply false] := by
  refine ⟨?_, ?_⟩
  · exact ((tcpip_unsupported_and_request_replies 25 [⟨true⟩]).1 rfl).1
  · exact (tcpip_unsupported_and_request_replies 80 [⟨true⟩, ⟨false⟩]).2 rfl

/-- Claim C9 counterexample: for the configured banner "a\r\nb" the
transmitted banner is "a\r\nb\r\n", not the string obtained by converting
every "\n" to "\r\n" (which would duplicate the "\r"): the code first
normalises "\r\n" to "\n". -/
theorem banner_crlf_counterexample :
    getBannerCallback "a\r\nb" = some "a\r\nb\r\n"
    ∧ bannerClaimedTransform "a\r\nb" = "a\r\r\nb\r\n"
    ∧ getBannerCallback "a\r\nb" ≠ some (bannerClaimedTransform "a\r\nb") := by
  exact ⟨rfl, rfl, by decide⟩

/-- Claim C9 (amended): the transmitted banner is the configured string with
every "\r\n" first normalised to "\n", then every "\n" converted to "\r\n",
and a trailing "\r\n" appended when not already present; for banners
containing no "\r" this agrees with the claimed plain conversion, the
transmitted banner always ends in "\r\n", and in particular "Hello\nWorld"
is transmitted as "Hello\r\nWorld\r\n". -/
theorem banner_amended (s : String) :
    getBannerCallback "Hello\nWorld" = some "Hello\r\nWorld\r\n"
    ∧ (s ≠ "" → '\r' ∉ s.data → getBannerCallback s = some (bannerClaimedTransform s))
    ∧ (s ≠ "" → ∃ b, getBannerCallback s = some b ∧ endsWithCRLF b.data = true) := by
  refine ⟨rfl, ?_, ?_⟩
  · intro hne hcr
    simp [getBannerCallback, bannerClaimedTransform, hne, crlfToLf_no_cr s.data hcr]
  · intro hne
    simp only [getBannerCallback, hne, if_neg (by exact hne)]
    by_cases h : endsWithCRLF (String.mk (lfToCrlf (crlfToLf s.data))).data = true
    · exact ⟨String.mk (lfToCrlf (crlfToLf s.data)), by simp [h], h⟩
    · refine ⟨String.mk (lfToCrlf (crlfToLf s.data)) ++ "\r\n", by simp [h], ?_⟩
      rw [String.data_append]
      exact endsWithCRLF_append _

/-- Witness for C9 (amended): the CR-free banner "x" is transmitted exactly
as the claimed transform produces, and ends in "\r\n". -/
theorem banner_amended_witness :
    getBannerCallback "x" = some (bannerClaimedTransform "x")
    ∧ ∃ b, getBannerCallback "x" = some b ∧ endsWithCRLF b.data = true := by
  refine ⟨?_, ?_⟩
  · exact (banner_amended "x").2.1 (by decide) (by decide)
  · exact (banner_amended "x").2.2 (by decide)

/-- Claim C10: the filesystem — tree, current-directory reference and path
string — is one shared value: a command's effect on it is independent of the
invoking context's user and pty flag, a file touched under one context is
visible to cat (and present among the directory entries ls prints) under any
other context, and the path pwd reports under any context is exactly the
path component of the shared state, including one installed by a cd from a
different context.  (Concurrent interleaving itself is outside this
embedding; the theorem captures the sharing by context-independence plus
sequential visibility.) -/
theorem filesystem_shared (st : FSState) (n : FSNode) (f : String)
    (args : List String) (p1 p2 : Bool) (u1 u2 : String)
    (h : getNode st.root st.cur = some n) :
    (cmdTouchExecute ⟨args, p1, u1⟩ st).fs = (cmdTouchExecute ⟨args, p2, u2⟩ st).fs
    ∧ (cmdCdExecute ⟨args, p1, u1⟩ st).fs = (cmdCdExecute ⟨args, p2, u2⟩ st).fs
    ∧ (cmdMkdirExecute ⟨args, p1, u1⟩ st).fs = (cmdMkdirExecute ⟨args, p2, u2⟩ st).fs
    ∧ (cmdCatExecute ⟨["cat", f], p2, u2⟩ (cmdTouchExecute ⟨["touch", f], p1, u1⟩ st).fs).status = 0
    ∧ (cmdCatExecute ⟨["cat", f], p2, u2⟩ (cmdTouchExecute ⟨["touch", f], p1, u1⟩ st).fs).out = "\n"
    ∧ (f, FSNode.mk false "" []) ∈ (curNode (cmdTouchExecute ⟨["touch", f], p1, u1⟩ st).fs).children
    ∧ (∀ ctx2 : Ctx, (cmdPwdExecute ctx2 st).out = st.path ++ "\n") := by
  have hl : lookupChild (curNode (cmdTouchExecute ⟨["touch", f], p1, u1⟩ st).fs).children f
      = some (FSNode.mk false "" []) := by
    have hupd := getNode_updateAt st.cur st.root
      (fun m => m.withChildren (([f]).foldl touchFold m.children)) n h
    simp only [cmdTouchExecute, curNode, hupd, Option.getD_some, children_withChildren]
    exact lookupChild_touchFoldl [f] n.children f (Or.inl (by simp))
  refine ⟨rfl, rfl, rfl, ?_, ?_, ?_, fun ctx2 => rfl⟩
  · simp [cmdCatExecute, catLoop, hl, FSNode.isDir]
  · simp [cmdCatExecute, catLoop, hl, FSNode.isDir, FSNode.content]
  · exact lookupChild_mem _ _ _ hl

/-- Witness for C10: a file touched by a non-root context at the seeded root
is seen by cat under a root pty context. -/
theorem filesystem_shared_witness :
    (cmdCatExecute ⟨["cat", "new.txt"], true, "root"⟩
        (cmdTouchExecute ⟨["touch", "new.txt"], false, "guest"⟩ initFS).fs).status = 0
    ∧ (cmdCatExecute ⟨["cat", "new.txt"], true, "root"⟩
        (cmdTouchExecute ⟨["touch", "new.txt"], false, "guest"⟩ initFS).fs).out = "\n" := by
  have h := filesystem_shared initFS seedRoot "new.txt" ["pwd"] false true "guest" "root" rfl
  exact ⟨h.2.2.2.1, h.2.2.2.2.1⟩

end Sshesame
